import Mathlib

/-!
Shallow embedding of `src/comotion/dash.py` (the Comotion Dash upload client)
and proofs about its chunking, serialization, HTTP and dry-run behaviour.

Modelling conventions:
* A pandas `DataFrame` is a column-name list plus an ordered list of rows of
  typed cell values (`Value.int` for numeric dtype cells, `Value.str` for
  object/string dtype cells).
* gzip compression is modelled as an abstract lossless container (`GzBytes`):
  the only library property the code relies on is that decompression recovers
  the compressed text exactly.
* The network is modelled by an oracle `wire : Nat → HttpResponse` giving the
  response to the n-th POST issued during a call; every issued request is
  recorded as an `Event.request` in an event trace along with file writes and
  log lines, so that "no network call happens" and "chunks already uploaded
  stay uploaded" are statable.
* Python exceptions are modelled with `Except`; an escaping exception is an
  `Except.error` result, and the event trace at that point is exactly the
  side effects performed before the raise.
-/

set_option linter.unusedVariables false

/-- A cell value of a dataframe: numeric cells print unquoted under
`csv.QUOTE_NONNUMERIC`, all other cells print quoted. -/
inductive Value where
  | int (n : Int)
  | str (s : String)
deriving DecidableEq, Repr

/-- A pandas dataframe: ordered column names and ordered rows of cells. -/
structure DataFrame where
  cols : List String
  rows : List (List Value)
deriving DecidableEq, Repr

/-- Fuel-driven worker for `rangeStep`; the fuel only serves structural
termination and never influences the result when it is at least
`stop - start` (see `rangeStepFuel_congr`). -/
def rangeStepFuel : Nat → Nat → Nat → Nat → List Nat
  | 0, _, _, _ => []
  | fuel + 1, start, stop, step =>
    if start < stop ∧ 0 < step then
      start :: rangeStepFuel fuel (start + step) stop step
    else
      []

/-- Python `range(start, stop, step)` for a positive step, as used on line 263
of `dash.py`: `range(0, dataframe.shape[0], chunksize)`. -/
def rangeStep (start stop step : Nat) : List Nat :=
  rangeStepFuel (stop - start) start stop step

/-- The chunk list built on line 263 of `dash.py`:
`[dataframe[i:i+chunksize] for i in range(0, dataframe.shape[0], chunksize)]`.
A slice `df[i:i+c]` keeps the columns and takes rows `i` to `i+c-1`.
`pd.read_csv(..., chunksize=c)` (line 146) yields exactly the same contiguous
row-bounded chunks, so both entry points chunk through this definition. -/
def dfSlices (df : DataFrame) (c : Nat) : List DataFrame :=
  (rangeStep 0 df.rows.length c).map
    (fun i => DataFrame.mk df.cols ((df.rows.drop i).take c))

-- ### CSV serialization (lines 57-87 of dash.py)

/-- Escaping performed by the csv writer inside a quoted field: every
double-quote character is doubled. -/
def escapeQuotes : List Char → List Char
  | [] => []
  | c :: rest =>
    if c = '"' then '"' :: '"' :: escapeQuotes rest
    else c :: escapeQuotes rest

/-- How `df.to_csv(..., quoting=csv.QUOTE_NONNUMERIC)` renders one cell:
numeric cells via their decimal representation, unquoted; all other cells
quoted, with inner quotes doubled. -/
def renderValueChars : Value → List Char
  | Value.int n => (toString n).data
  | Value.str s => '"' :: (escapeQuotes s.data ++ ['"'])

/-- One CSV record: cells joined by commas. -/
def renderLine : List Value → List Char
  | [] => []
  | [v] => renderValueChars v
  | v :: w :: vs => renderValueChars v ++ ',' :: renderLine (w :: vs)

/-- A sequence of CSV records, each terminated by a newline. -/
def csvLines : List (List Value) → List Char
  | [] => []
  | l :: ls => renderLine l ++ '\n' :: csvLines ls

/-- The text `df.to_csv(csv_stream, encoding="utf-8", index=False,
quoting=csv.QUOTE_NONNUMERIC)` writes (line 79 of dash.py): a header record
holding the column names (strings, hence quoted), then one record per row,
and no index column. -/
def toCsv (df : DataFrame) : String :=
  String.mk (csvLines ((df.cols.map Value.str) :: df.rows))

/-- gzip-compressed bytes, modelled as an abstract lossless container: the
program never inspects the compressed representation, it only relies on the
payload being recoverable. -/
structure GzBytes where
  content : String
deriving DecidableEq, Repr

/-- Abstract gzip compression (`compression="gzip"` on line 81 of dash.py). -/
def gzipCompress (s : String) : GzBytes := GzBytes.mk s

/-- Abstract gzip decompression: recovers exactly the compressed text. -/
def gzipDecompress (g : GzBytes) : String := g.content

/-- Lines 78-87 of dash.py: serialize the dataframe to gzipped utf-8 CSV with
the index omitted and non-numeric fields quoted. -/
def create_gzipped_csv_stream_from_df (df : DataFrame) : GzBytes :=
  gzipCompress (toCsv df)

-- ### HTTP layer (lines 11-54 of dash.py)

/-- An HTTP response: status code and body text. -/
structure HttpResponse where
  status : Nat
  text : String
deriving DecidableEq, Repr

/-- Whether a status code is a 2xx success code. -/
def is2xx (r : HttpResponse) : Bool := 200 ≤ r.status && r.status < 300

/-- Whether `requests.Response.raise_for_status` raises for this status:
client errors (4xx) and server errors (5xx) only. -/
def httpRaises (r : HttpResponse) : Bool := 400 ≤ r.status && r.status < 600

/-- An HTTP request as assembled by `upload_csv_to_dash`. -/
structure HttpRequest where
  method : String
  url : String
  headers : List (String × String)
  body : GzBytes
deriving DecidableEq, Repr

/-- Line 35 of dash.py: the fixed endpoint. -/
def dashUrl : String := "https://api.comodash.io/v1/data-input-file"

/-- Lines 37-43 of dash.py: the request headers. -/
def dashHeaders (dash_api_key dash_orgname dash_table : String) :
    List (String × String) :=
  [("Content-Type", "application/gzip"),
   ("service_client_id", "0"),
   ("x-api-key", dash_api_key),
   ("org-name", dash_orgname),
   ("table-name", dash_table)]

/-- A Python exception escaping a call: `requests.HTTPError` carrying the
response, or a `ValueError`/`KeyError`-style failure carrying a message. -/
inductive PyError where
  | httpError (resp : HttpResponse)
  | valueError (msg : String)
deriving DecidableEq, Repr

/-- Decidable equality of call outcomes, used to evaluate the model on
concrete inputs. -/
instance exceptDecEq {e a : Type} [DecidableEq e] [DecidableEq a] :
    DecidableEq (Except e a)
  | Except.ok x, Except.ok y =>
    if h : x = y then isTrue (by rw [h])
    else isFalse (by intro hc; cases hc; exact h rfl)
  | Except.ok x, Except.error y => isFalse (by intro hc; cases hc)
  | Except.error x, Except.ok y => isFalse (by intro hc; cases hc)
  | Except.error x, Except.error y =>
    if h : x = y then isTrue (by rw [h])
    else isFalse (by intro hc; cases hc; exact h rfl)

/-- An observable side effect of a call. -/
inductive Event where
  | request (req : HttpRequest) (resp : HttpResponse)
  | fileWrite (path : String) (payload : GzBytes)
  | logInfo (msg : String)
deriving DecidableEq, Repr

/-- Whether an event is a network call. -/
def Event.isRequest : Event → Bool
  | Event.request _ _ => true
  | _ => false

/-- Whether an event is a chunk-file write to disk. -/
def Event.isFileWrite : Event → Bool
  | Event.fileWrite _ _ => true
  | _ => false

/-- `requests.Response.raise_for_status` (line 52 of dash.py): raises
`HTTPError` exactly when the status code is in `[400, 600)`. -/
def raise_for_status (resp : HttpResponse) : Except PyError HttpResponse :=
  if 400 ≤ resp.status ∧ resp.status < 600 then
    Except.error (PyError.httpError resp)
  else
    Except.ok resp

/-- Lines 11-54 of dash.py: one POST of the gzipped stream to the fixed URL
with the fixed headers.  `resp` is the response delivered by the network for
this single request; the returned trace records the request that was issued. -/
def upload_csv_to_dash (dash_orgname dash_api_key dash_table : String)
    (csv_gz_stream : GzBytes) (resp : HttpResponse) :
    List Event × Except PyError HttpResponse :=
  ([Event.request
      (HttpRequest.mk "POST" dashUrl
        (dashHeaders dash_api_key dash_orgname dash_table) csv_gz_stream)
      resp],
   raise_for_status resp)

-- ### File-based chunked upload (lines 90-183 of dash.py)

/-- `os.path.join(dir, name)` for a directory path and a relative file name. -/
def pathJoin (dir name : String) : String := dir ++ "/" ++ name

/-- Line 156-157 of dash.py: apply the optional `modify_lambda` to a chunk
(the Python callable mutates the chunk dataframe in place; the chunk is a
fresh object per iteration, so value semantics are faithful). -/
def applyModify (m : Option (DataFrame → DataFrame)) (df : DataFrame) :
    DataFrame :=
  match m with
  | some f => f df
  | none => df

/-- The chunk loop of `read_and_upload_file_to_dash` (lines 152-183): `n` is
the zero-based position of the next chunk, so the source's counter `i`
(starting at 1) equals `n + 1`; `wire n` is the response to the n-th POST of
the call.  Returns the event trace and either the collected response texts or
the first escaping exception. -/
def readLoop (org key table : String) (m : Option (DataFrame → DataFrame))
    (dry : Option String) (wire : Nat → HttpResponse) :
    Nat → List DataFrame → List Event × Except PyError (List String)
  | _, [] => ([], Except.ok [])
  | n, ch :: rest =>
    let df := applyModify m ch
    let stream := create_gzipped_csv_stream_from_df df
    match dry with
    | none =>
      match upload_csv_to_dash org key table stream (wire n) with
      | (evs, Except.error e) => (evs, Except.error e)
      | (evs, Except.ok resp) =>
        match readLoop org key table m none wire (n + 1) rest with
        | (evs2, Except.error e) => (evs ++ evs2, Except.error e)
        | (evs2, Except.ok texts) => (evs ++ evs2, Except.ok (resp.text :: texts))
    | some dir =>
      let p := readLoop org key table m (some dir) wire (n + 1) rest
      (Event.fileWrite (pathJoin dir (table ++ "." ++ toString (n + 1) ++ ".csv.gz")) stream :: p.1,
       p.2)

/-- Lines 90-183 of dash.py.  `file` is the parsed content of the source CSV;
`pd.read_csv(file, chunksize=chunksize)` (line 146) delivers it as the
contiguous row-bounded chunks `dfSlices file chunksize`. -/
def read_and_upload_file_to_dash (file : DataFrame)
    (dash_table dash_orgname dash_api_key : String) (chunksize : Nat)
    (modify_lambda : Option (DataFrame → DataFrame))
    (path_to_output_for_dryrun : Option String) (wire : Nat → HttpResponse) :
    List Event × Except PyError (List String) :=
  readLoop dash_orgname dash_api_key dash_table modify_lambda
    path_to_output_for_dryrun wire 0 (dfSlices file chunksize)

-- ### Dataframe-based chunked upload (lines 185-284 of dash.py)

/-- A target dtype in an `astype` coercion map. -/
inductive DType where
  | int
  | str
deriving DecidableEq, Repr

/-- Decimal digit-string accumulator for `strToInt?`. -/
def digitsToNat : List Char → Nat → Option Nat
  | [], acc => some acc
  | c :: rest, acc =>
    if c.isDigit then digitsToNat rest (acc * 10 + (c.toNat - 48))
    else none

/-- Python `int(s)` on a string: optional sign then a nonempty digit run,
`None` when the literal is invalid. -/
def strToInt? (s : String) : Option Int :=
  match s.data with
  | [] => none
  | '-' :: rest =>
    if rest = [] then none
    else (digitsToNat rest 0).map (fun n => -(n : Int))
  | '+' :: rest =>
    if rest = [] then none
    else (digitsToNat rest 0).map (fun n => (n : Int))
  | cs => (digitsToNat cs 0).map (fun n => (n : Int))

/-- Python `str(value)`. -/
def pyStr : Value → String
  | Value.int n => toString n
  | Value.str s => s

/-- Casting one cell to a target dtype, as `DataFrame.astype` does:
string-to-int parses the literal and raises `ValueError` on failure. -/
def castValue (t : DType) (v : Value) : Except String Value :=
  match t, v with
  | DType.int, Value.int n => Except.ok (Value.int n)
  | DType.int, Value.str s =>
    match strToInt? s with
    | some n => Except.ok (Value.int n)
    | none => Except.error ("invalid literal for int: " ++ s)
  | DType.str, v => Except.ok (Value.str (pyStr v))

/-- Casting one row: each cell whose column name appears in the coercion map
is cast, the rest are kept. -/
def castRow (cols : List String) (d : List (String × DType)) :
    List Value → Except String (List Value)
  | [] => Except.ok []
  | v :: vs =>
    match cols with
    | [] => Except.ok (v :: vs)
    | c :: cs =>
      (match List.lookup c d with
       | none => Except.ok v
       | some t => castValue t v).bind fun v' =>
      (castRow cs d vs).map fun vs' => v' :: vs'

/-- `DataFrame.astype(dtype=d)` (line 257 of dash.py): raises `KeyError` if a
key of the map is not a column, otherwise casts every cell of the named
columns, raising on the first uncastable value. -/
def astype (df : DataFrame) (d : List (String × DType)) :
    Except String DataFrame :=
  if d.all (fun p => df.cols.contains p.1) then
    (df.rows.mapM (castRow df.cols d)).map (fun rs => DataFrame.mk df.cols rs)
  else
    Except.error "KeyError: only a column name can be used as a dtype key"

/-- Pandas column assignment `df[name] = v` broadcasting a scalar: overwrites
the column if it exists, otherwise appends a new column on the right. -/
def setColumn (df : DataFrame) (name : String) (v : Value) : DataFrame :=
  if name ∈ df.cols then
    DataFrame.mk df.cols (df.rows.map (fun row => row.set (df.cols.indexOf name) v))
  else
    DataFrame.mk (df.cols ++ [name]) (df.rows.map (fun row => row ++ [v]))

/-- The Python object heap, restricted to dataframe objects: a reference is an
index.  Needed to state which object `dataframe['snapshot_timestamp'] = ...`
mutates in place. -/
structure Heap where
  objs : List DataFrame
deriving DecidableEq, Repr

/-- Dereference (out-of-range defaults to an empty frame; theorems always
supply in-range references). -/
def Heap.get (h : Heap) (r : Nat) : DataFrame := h.objs.getD r (DataFrame.mk [] [])

/-- In-place mutation of the object at `r`. -/
def Heap.set (h : Heap) (r : Nat) (df : DataFrame) : Heap := Heap.mk (h.objs.set r df)

/-- Allocation of a fresh object, returning its reference. -/
def Heap.alloc (h : Heap) (df : DataFrame) : Heap × Nat :=
  (Heap.mk (h.objs ++ [df]), h.objs.length)

/-- Python truthiness of the `dtypes` argument (line 256 of dash.py):
`None` and the empty dict are falsy. -/
def dtypesTruthy : Option (List (String × DType)) → Bool
  | some (_ :: _) => true
  | some [] => false
  | none => false

/-- Value-level view of lines 256-257 of dash.py: `astype` is applied exactly
when `dtypes` is truthy. -/
def applyDtypes (df : DataFrame) :
    Option (List (String × DType)) → Except String DataFrame
  | some (p :: ps) => astype df (p :: ps)
  | some [] => Except.ok df
  | none => Except.ok df

/-- Value-level view of lines 260-261 of dash.py: the snapshot column. -/
def addSnapshot (df : DataFrame) (include_snapshot : Bool) (ts : String) :
    DataFrame :=
  if include_snapshot then setColumn df "snapshot_timestamp" (Value.str ts)
  else df

/-- The dataframe that actually gets chunked and serialized by
`upload_dataframe`: the input after optional dtype coercion (first) and
optional snapshot column (second). -/
def preparedDf (df : DataFrame) (dtypes : Option (List (String × DType)))
    (include_snapshot : Bool) (ts : String) : Except String DataFrame :=
  (applyDtypes df dtypes).map (fun d => addSnapshot d include_snapshot ts)

/-- The chunk loop of `upload_dataframe` (lines 265-282): `n` is the 0-based
`enumerate` index, used both for the dry-run file name and as the POST
counter; a successful upload logs the response text (line 278) instead of
collecting it. -/
def dfLoop (org key table : String) (dry : Option String)
    (wire : Nat → HttpResponse) :
    Nat → List DataFrame → List Event × Except PyError Unit
  | _, [] => ([], Except.ok ())
  | n, ch :: rest =>
    let stream := create_gzipped_csv_stream_from_df ch
    match dry with
    | none =>
      match upload_csv_to_dash org key table stream (wire n) with
      | (evs, Except.error e) => (evs, Except.error e)
      | (evs, Except.ok resp) =>
        let p := dfLoop org key table none wire (n + 1) rest
        (evs ++ Event.logInfo resp.text :: p.1, p.2)
    | some dir =>
      let p := dfLoop org key table (some dir) wire (n + 1) rest
      (Event.fileWrite (pathJoin dir (table ++ "." ++ toString n ++ ".csv.gz")) stream :: p.1,
       p.2)

/-- The tail of `upload_dataframe` once the local variable `dataframe` refers
to the object at `loc`: the snapshot assignment (lines 260-261) mutates that
object in place, then the chunk loop runs over its slices. -/
def dfRun (h : Heap) (loc : Nat) (org key table : String) (dry : Option String)
    (include_snapshot : Bool) (ts : String) (c : Nat)
    (wire : Nat → HttpResponse) : Heap × List Event × Except PyError Unit :=
  let h2 :=
    if include_snapshot then
      h.set loc (setColumn (h.get loc) "snapshot_timestamp" (Value.str ts))
    else h
  let p := dfLoop org key table dry wire 0 (dfSlices (h2.get loc) c)
  (h2, p.1, p.2)

/-- Lines 185-284 of dash.py.  `h` is the heap, `r` the caller's reference to
the dataframe argument, `ts` the call-start timestamp already formatted as
`%Y-%m-%d %H:%M:%S.%f` (line 240/261).  When `dtypes` is truthy, `astype`
produces a fresh object (line 257 rebinds the local name to it), so later
mutation does not touch the caller's object; a cast failure escapes before
any chunk is processed.  Returns the final heap, the event trace and the
outcome (the Python function returns `None` on success). -/
def upload_dataframe (h : Heap) (r : Nat)
    (dash_table dash_orgname dash_api_key : String)
    (dtypes : Option (List (String × DType))) (chunksize : Nat)
    (path_to_output_for_dryrun : Option String) (include_snapshot : Bool)
    (ts : String) (wire : Nat → HttpResponse) :
    Heap × List Event × Except PyError Unit :=
  match dtypes with
  | some (p :: ps) =>
    match astype (h.get r) (p :: ps) with
    | Except.error e => (h, [], Except.error (PyError.valueError e))
    | Except.ok df1 =>
      let al := h.alloc df1
      dfRun al.1 al.2 dash_orgname dash_api_key dash_table
        path_to_output_for_dryrun include_snapshot ts chunksize wire
  | some [] =>
    dfRun h r dash_orgname dash_api_key dash_table
      path_to_output_for_dryrun include_snapshot ts chunksize wire
  | none =>
    dfRun h r dash_orgname dash_api_key dash_table
      path_to_output_for_dryrun include_snapshot ts chunksize wire

-- ### Expected traces (specification-side descriptions of the loops)

/-- The request `upload_csv_to_dash` issues for one serialized chunk. -/
def chunkRequest (org key table : String) (df : DataFrame) : HttpRequest :=
  HttpRequest.mk "POST" dashUrl (dashHeaders key org table)
    (create_gzipped_csv_stream_from_df df)

/-- Expected upload trace of the file-based loop: one POST per chunk, in
order. -/
def expectedReadTrace (org key table : String)
    (m : Option (DataFrame → DataFrame)) (wire : Nat → HttpResponse) :
    Nat → List DataFrame → List Event
  | _, [] => []
  | n, ch :: rest =>
    Event.request (chunkRequest org key table (applyModify m ch)) (wire n) ::
      expectedReadTrace org key table m wire (n + 1) rest

/-- Expected upload trace of the dataframe-based loop: one POST then one log
line per chunk, in order. -/
def expectedDfTrace (org key table : String) (wire : Nat → HttpResponse) :
    Nat → List DataFrame → List Event
  | _, [] => []
  | n, ch :: rest =>
    Event.request (chunkRequest org key table ch) (wire n) ::
      Event.logInfo (wire n).text ::
      expectedDfTrace org key table wire (n + 1) rest

/-- Expected dry-run trace of the file-based loop: chunk at 0-based position
`k` is written with 1-based file index `k + 1`. -/
def expectedReadFiles (dir table : String)
    (m : Option (DataFrame → DataFrame)) :
    Nat → List DataFrame → List Event
  | _, [] => []
  | n, ch :: rest =>
    Event.fileWrite (pathJoin dir (table ++ "." ++ toString (n + 1) ++ ".csv.gz"))
      (create_gzipped_csv_stream_from_df (applyModify m ch)) ::
      expectedReadFiles dir table m (n + 1) rest

/-- Expected dry-run trace of the dataframe-based loop: chunk at 0-based
position `k` is written with 0-based file index `k`. -/
def expectedDfFiles (dir table : String) :
    Nat → List DataFrame → List Event
  | _, [] => []
  | n, ch :: rest =>
    Event.fileWrite (pathJoin dir (table ++ "." ++ toString n ++ ".csv.gz"))
      (create_gzipped_csv_stream_from_df ch) ::
      expectedDfFiles dir table (n + 1) rest

/-- Expected return value of the file-based loop on full success: the
response texts in chunk order. -/
def expectedTexts (wire : Nat → HttpResponse) :
    Nat → List DataFrame → List String
  | _, [] => []
  | n, _ :: rest => (wire n).text :: expectedTexts wire (n + 1) rest

-- ### CSV parsing (specification side, for the serialization round trip)

/-- A parsed CSV field: a quoted field with its unescaped content, or an
unquoted (numeric) token. -/
inductive CsvField where
  | quoted (s : List Char)
  | unquoted (s : List Char)
deriving DecidableEq, Repr

/-- The field a correctly serialized cell should parse back to. -/
def csvFieldOfValue : Value → CsvField
  | Value.int n => CsvField.unquoted (toString n).data
  | Value.str s => CsvField.quoted s.data

/-- Parse the remainder of a quoted field (the opening quote already
consumed): a doubled quote is content, a single quote closes the field. -/
def parseQuoted : List Char → Option (List Char × List Char)
  | [] => none
  | [c] => if c = '"' then some ([], []) else none
  | c :: c2 :: rest =>
    if c = '"' then
      if c2 = '"' then (parseQuoted rest).map (fun p => ('"' :: p.1, p.2))
      else some ([], c2 :: rest)
    else
      (parseQuoted (c2 :: rest)).map (fun p => (c :: p.1, p.2))

/-- Take an unquoted token: everything up to the next comma or newline. -/
def takeUnquoted : List Char → List Char × List Char
  | [] => ([], [])
  | c :: rest =>
    if c = ',' || c = '\n' then ([], c :: rest)
    else
      let p := takeUnquoted rest
      (c :: p.1, p.2)

/-- Parse one field, returning it and the unconsumed remainder. -/
def parseField (cs : List Char) : Option (CsvField × List Char) :=
  match cs with
  | [] => some (CsvField.unquoted [], [])
  | c :: rest =>
    if c = '"' then
      (parseQuoted rest).map (fun p => (CsvField.quoted p.1, p.2))
    else
      let p := takeUnquoted (c :: rest)
      some (CsvField.unquoted p.1, p.2)

/-- Parse one record: fields separated by commas; the fuel bounds the number
of fields and never influences the result when it is large enough. -/
def parseRecord : Nat → List Char → Option (List CsvField × List Char)
  | 0, _ => none
  | fuel + 1, cs =>
    match parseField cs with
    | none => none
    | some (f, rest) =>
      match rest with
      | [] => some ([f], [])
      | c :: rest2 =>
        if c = ',' then
          match parseRecord fuel rest2 with
          | none => none
          | some p => some (f :: p.1, p.2)
        else some ([f], c :: rest2)

/-- Parse a sequence of newline-terminated records; the fuel bounds the
number of records and never influences the result when it is large enough. -/
def parseRecords : Nat → List Char → Option (List (List CsvField))
  | 0, _ => none
  | fuel + 1, cs =>
    if cs = [] then some []
    else
      match parseRecord (cs.length + 1) cs with
      | none => none
      | some (r, rest) =>
        match rest with
        | [] => none
        | c :: rest2 =>
          if c = '\n' then
            match parseRecords fuel rest2 with
            | none => none
            | some rs => some (r :: rs)
          else none

/-- Parse a full CSV text into its records of classified fields. -/
def parseCsvChars (cs : List Char) : Option (List (List CsvField)) :=
  parseRecords (cs.length + 1) cs

/-- A character an integer rendering may contain: never a comma, newline or
quote, so unquoted numeric tokens cannot collide with CSV structure. -/
def plainChar (c : Char) : Bool := !(c = ',' || c = '\n' || c = '"')

-- ### Chunking lemmas

theorem rangeStepFuel_congr (stop step : Nat) :
    ∀ (f g start : Nat), stop - start ≤ f → stop - start ≤ g →
      rangeStepFuel f start stop step = rangeStepFuel g start stop step := by
  intro f
  induction f with
  | zero =>
    intro g start hf hg
    cases g with
    | zero => rfl
    | succ g =>
      rw [rangeStepFuel, rangeStepFuel, if_neg]
      intro hc
      omega
  | succ f ih =>
    intro g start hf hg
    cases g with
    | zero =>
      rw [rangeStepFuel, rangeStepFuel, if_neg]
      intro hc
      omega
    | succ g =>
      rw [rangeStepFuel, rangeStepFuel]
      by_cases hcond : start < stop ∧ 0 < step
      · rw [if_pos hcond, if_pos hcond,
          ih g (start + step) (by omega) (by omega)]
      · rw [if_neg hcond, if_neg hcond]

theorem rangeStep_eq (start stop step : Nat) :
    rangeStep start stop step
      = if start < stop ∧ 0 < step then
          start :: rangeStep (start + step) stop step
        else [] := by
  rw [rangeStep, rangeStep]
  by_cases hcond : start < stop ∧ 0 < step
  · rw [if_pos hcond]
    rw [show stop - start = (stop - start - 1) + 1 from by omega, rangeStepFuel,
      if_pos hcond]
    congr 1
    exact rangeStepFuel_congr stop step (stop - start - 1) (stop - (start + step))
      (start + step) (by omega) (by omega)
  · rw [if_neg hcond]
    cases hf : stop - start with
    | zero => rfl
    | succ n => rw [rangeStepFuel, if_neg hcond]

theorem rangeStep_length (start stop step : Nat) (hstep : 0 < step) :
    (rangeStep start stop step).length = (stop - start + step - 1) / step := by
  rw [rangeStep_eq]
  split
  · rename_i h
    rw [List.length_cons, rangeStep_length (start + step) stop step hstep]
    rcases Nat.lt_or_ge (stop - start) step with hlt | hge
    · have h1 : stop - (start + step) = 0 := by omega
      rw [h1]
      have h2 : (0 + step - 1) / step = 0 := Nat.div_eq_of_lt (by omega)
      rw [h2]
      have h3 : 1 * step ≤ stop - start + step - 1 := by omega
      have h4 : stop - start + step - 1 < 2 * step := by omega
      rw [Nat.div_eq_of_lt_le h3 h4]
    · have h1 : stop - (start + step) + step - 1 = stop - start - 1 := by omega
      have h2 : stop - start + step - 1 = (stop - start - 1) + step := by omega
      rw [h1, h2, Nat.add_div_right _ hstep]
  · rename_i h
    have h1 : stop - start = 0 := by omega
    rw [List.length_nil, h1]
    exact (Nat.div_eq_of_lt (by omega)).symm
termination_by stop - start
decreasing_by omega

theorem rangeStep_map_flatten {α : Type} (l : List α) (start step : Nat)
    (hstep : 0 < step) :
    ((rangeStep start l.length step).map
      (fun i => (l.drop i).take step)).flatten = l.drop start := by
  rw [rangeStep_eq]
  split
  · rename_i h
    rw [List.map_cons, List.flatten_cons,
      rangeStep_map_flatten l (start + step) step hstep]
    rw [show l.drop (start + step) = (l.drop start).drop step from
      (List.drop_drop step start l).symm ▸ by rw [Nat.add_comm]]
    exact List.take_append_drop step (l.drop start)
  · rename_i h
    have h1 : l.length ≤ start := by omega
    rw [List.drop_eq_nil_of_le h1]
    rfl
termination_by l.length - start
decreasing_by omega

theorem dfSlices_flatten (df : DataFrame) (c : Nat) (hc : 0 < c) :
    ((dfSlices df c).map DataFrame.rows).flatten = df.rows := by
  have h := rangeStep_map_flatten df.rows 0 c hc
  rw [List.drop_zero] at h
  rw [dfSlices, List.map_map]
  exact h

theorem dfSlices_length (df : DataFrame) (c : Nat) (hc : 0 < c) :
    (dfSlices df c).length = (df.rows.length + c - 1) / c := by
  rw [dfSlices, List.length_map, rangeStep_length _ _ _ hc, Nat.sub_zero]

theorem dfSlices_rows_le (df : DataFrame) (c : Nat) :
    ∀ s ∈ dfSlices df c, s.rows.length ≤ c := by
  intro s hs
  rw [dfSlices, List.mem_map] at hs
  obtain ⟨i, hi, rfl⟩ := hs
  exact List.length_take_le c _

theorem dfSlices_cols (df : DataFrame) (c : Nat) :
    ∀ s ∈ dfSlices df c, s.cols = df.cols := by
  intro s hs
  rw [dfSlices, List.mem_map] at hs
  obtain ⟨i, hi, rfl⟩ := hs
  rfl

theorem dfSlices_mem_rows (df : DataFrame) (c : Nat) (hc : 0 < c)
    (s : DataFrame) (hs : s ∈ dfSlices df c) :
    ∀ r ∈ s.rows, r ∈ df.rows := by
  intro r hr
  have hjoin := dfSlices_flatten df c hc
  rw [← hjoin]
  rw [List.mem_flatten]
  exact ⟨s.rows, List.mem_map_of_mem DataFrame.rows hs, hr⟩

-- ### raise_for_status lemmas

theorem raise_for_status_of_false (r : HttpResponse) (h : httpRaises r = false) :
    raise_for_status r = Except.ok r := by
  rw [raise_for_status, if_neg]
  intro hc
  rw [httpRaises] at h
  simp [hc.1, hc.2] at h

theorem raise_for_status_of_true (r : HttpResponse) (h : httpRaises r = true) :
    raise_for_status r = Except.error (PyError.httpError r) := by
  rw [httpRaises, Bool.and_eq_true, decide_eq_true_eq, decide_eq_true_eq] at h
  rw [raise_for_status, if_pos h]

theorem is2xx_not_raises (r : HttpResponse) (h : is2xx r = true) :
    httpRaises r = false := by
  rw [is2xx, Bool.and_eq_true, decide_eq_true_eq, decide_eq_true_eq] at h
  rw [httpRaises]
  simp only [Bool.and_eq_false_iff, decide_eq_false_iff_not]
  left
  omega

-- ### Heap lemmas

theorem Heap.get_set_self (h : Heap) (r : Nat) (df : DataFrame)
    (hr : r < h.objs.length) : (h.set r df).get r = df := by
  rw [Heap.set, Heap.get]
  simp [List.getD_eq_getElem?_getD, List.getElem?_set_self, hr]

theorem Heap.get_set_other (h : Heap) (r s : Nat) (df : DataFrame)
    (hne : r ≠ s) : (h.set s df).get r = h.get r := by
  rw [Heap.set, Heap.get, Heap.get]
  simp [List.getD_eq_getElem?_getD, List.getElem?_set_ne (Ne.symm hne)]

theorem Heap.get_alloc_new (h : Heap) (df : DataFrame) :
    (h.alloc df).1.get (h.alloc df).2 = df := by
  rw [Heap.alloc, Heap.get]
  simp [List.getD_eq_getElem?_getD, List.getElem?_append_right (Nat.le_refl _)]

theorem Heap.get_alloc_old (h : Heap) (df : DataFrame) (r : Nat)
    (hr : r < h.objs.length) : (h.alloc df).1.get r = h.get r := by
  rw [Heap.alloc, Heap.get, Heap.get]
  simp [List.getD_eq_getElem?_getD, List.getElem?_append_left hr]

theorem Heap.alloc_length (h : Heap) (df : DataFrame) :
    (h.alloc df).1.objs.length = h.objs.length + 1 := by
  rw [Heap.alloc]
  simp

-- ### Expected-trace structural lemmas

theorem expectedReadFiles_length (dir table : String)
    (m : Option (DataFrame → DataFrame)) (n : Nat) (cs : List DataFrame) :
    (expectedReadFiles dir table m n cs).length = cs.length := by
  induction cs generalizing n with
  | nil => rfl
  | cons ch rest ih => simp [expectedReadFiles, ih]

theorem expectedDfFiles_length (dir table : String) (n : Nat)
    (cs : List DataFrame) :
    (expectedDfFiles dir table n cs).length = cs.length := by
  induction cs generalizing n with
  | nil => rfl
  | cons ch rest ih => simp [expectedDfFiles, ih]

theorem expectedTexts_length (wire : Nat → HttpResponse) (n : Nat)
    (cs : List DataFrame) : (expectedTexts wire n cs).length = cs.length := by
  induction cs generalizing n with
  | nil => rfl
  | cons ch rest ih => simp [expectedTexts, ih]

theorem expectedTexts_getD (wire : Nat → HttpResponse) (n k : Nat)
    (cs : List DataFrame) (hk : k < cs.length) :
    (expectedTexts wire n cs).getD k "" = (wire (n + k)).text := by
  induction cs generalizing n k with
  | nil => simp at hk
  | cons ch rest ih =>
    cases k with
    | zero => simp [expectedTexts]
    | succ k =>
      rw [expectedTexts, List.getD_cons_succ,
        ih (n + 1) k (by simp only [List.length_cons] at hk; omega),
        show n + 1 + k = n + (k + 1) from by omega]

theorem expectedReadFiles_getD (dir table : String)
    (m : Option (DataFrame → DataFrame)) (n k : Nat) (cs : List DataFrame)
    (hk : k < cs.length) :
    (expectedReadFiles dir table m n cs).getD k (Event.logInfo "")
      = Event.fileWrite
          (pathJoin dir (table ++ "." ++ toString (n + k + 1) ++ ".csv.gz"))
          (create_gzipped_csv_stream_from_df
            (applyModify m (cs.getD k (DataFrame.mk [] [])))) := by
  induction cs generalizing n k with
  | nil => simp at hk
  | cons ch rest ih =>
    cases k with
    | zero => simp [expectedReadFiles]
    | succ k =>
      rw [expectedReadFiles, List.getD_cons_succ, List.getD_cons_succ,
        ih (n + 1) k (by simp only [List.length_cons] at hk; omega),
        show n + 1 + k = n + (k + 1) from by omega]

theorem expectedDfFiles_getD (dir table : String) (n k : Nat)
    (cs : List DataFrame) (hk : k < cs.length) :
    (expectedDfFiles dir table n cs).getD k (Event.logInfo "")
      = Event.fileWrite
          (pathJoin dir (table ++ "." ++ toString (n + k) ++ ".csv.gz"))
          (create_gzipped_csv_stream_from_df (cs.getD k (DataFrame.mk [] []))) := by
  induction cs generalizing n k with
  | nil => simp at hk
  | cons ch rest ih =>
    cases k with
    | zero => simp [expectedDfFiles]
    | succ k =>
      rw [expectedDfFiles, List.getD_cons_succ, List.getD_cons_succ,
        ih (n + 1) k (by simp only [List.length_cons] at hk; omega),
        show n + 1 + k = n + (k + 1) from by omega]

-- ### Loop behaviour lemmas

theorem readLoop_dry (org key table : String)
    (m : Option (DataFrame → DataFrame)) (dir : String)
    (wire : Nat → HttpResponse) (n : Nat) (cs : List DataFrame) :
    readLoop org key table m (some dir) wire n cs
      = (expectedReadFiles dir table m n cs, Except.ok []) := by
  induction cs generalizing n with
  | nil => simp [readLoop, expectedReadFiles]
  | cons ch rest ih => simp [readLoop, expectedReadFiles, ih]

theorem dfLoop_dry (org key table : String) (dir : String)
    (wire : Nat → HttpResponse) (n : Nat) (cs : List DataFrame) :
    dfLoop org key table (some dir) wire n cs
      = (expectedDfFiles dir table n cs, Except.ok ()) := by
  induction cs generalizing n with
  | nil => simp [dfLoop, expectedDfFiles]
  | cons ch rest ih => simp [dfLoop, expectedDfFiles, ih]

theorem readLoop_ok (org key table : String)
    (m : Option (DataFrame → DataFrame)) (wire : Nat → HttpResponse)
    (n : Nat) (cs : List DataFrame)
    (hok : ∀ j, j < cs.length → httpRaises (wire (n + j)) = false) :
    readLoop org key table m none wire n cs
      = (expectedReadTrace org key table m wire n cs,
         Except.ok (expectedTexts wire n cs)) := by
  induction cs generalizing n with
  | nil => simp [readLoop, expectedReadTrace, expectedTexts]
  | cons ch rest ih =>
    have h0 : httpRaises (wire n) = false := by
      have h := hok 0 (by simp)
      simpa using h
    have hstat := raise_for_status_of_false (wire n) h0
    have ih' := ih (n + 1) (fun j hj => by
      have h := hok (j + 1) (by simp only [List.length_cons]; omega)
      rwa [show n + (j + 1) = n + 1 + j from by omega] at h)
    simp [readLoop, expectedReadTrace, expectedTexts, upload_csv_to_dash,
      chunkRequest, hstat, ih']

theorem dfLoop_ok (org key table : String) (wire : Nat → HttpResponse)
    (n : Nat) (cs : List DataFrame)
    (hok : ∀ j, j < cs.length → httpRaises (wire (n + j)) = false) :
    dfLoop org key table none wire n cs
      = (expectedDfTrace org key table wire n cs, Except.ok ()) := by
  induction cs generalizing n with
  | nil => simp [dfLoop, expectedDfTrace]
  | cons ch rest ih =>
    have h0 : httpRaises (wire n) = false := by
      have h := hok 0 (by simp)
      simpa using h
    have hstat := raise_for_status_of_false (wire n) h0
    have ih' := ih (n + 1) (fun j hj => by
      have h := hok (j + 1) (by simp only [List.length_cons]; omega)
      rwa [show n + (j + 1) = n + 1 + j from by omega] at h)
    simp [dfLoop, expectedDfTrace, upload_csv_to_dash, chunkRequest, hstat, ih']

theorem readLoop_fail (org key table : String)
    (m : Option (DataFrame → DataFrame)) (wire : Nat → HttpResponse)
    (n : Nat) (pre : List DataFrame) (ch : DataFrame) (post : List DataFrame)
    (hok : ∀ j, j < pre.length → httpRaises (wire (n + j)) = false)
    (hbad : httpRaises (wire (n + pre.length)) = true) :
    readLoop org key table m none wire n (pre ++ ch :: post)
      = (expectedReadTrace org key table m wire n pre
           ++ [Event.request (chunkRequest org key table (applyModify m ch))
                 (wire (n + pre.length))],
         Except.error (PyError.httpError (wire (n + pre.length)))) := by
  induction pre generalizing n with
  | nil =>
    simp only [List.length_nil, Nat.add_zero] at hbad
    have hstat := raise_for_status_of_true (wire n) hbad
    simp [readLoop, expectedReadTrace, upload_csv_to_dash, chunkRequest, hstat]
  | cons p pre ih =>
    have h0 : httpRaises (wire n) = false := by
      have h := hok 0 (by simp)
      simpa using h
    have hstat := raise_for_status_of_false (wire n) h0
    have hbad' : httpRaises (wire (n + 1 + pre.length)) = true := by
      rw [show n + 1 + pre.length = n + (p :: pre).length from by
        simp only [List.length_cons]; omega]
      exact hbad
    have ih' := ih (n + 1) (fun j hj => by
      have h := hok (j + 1) (by simp only [List.length_cons]; omega)
      rwa [show n + (j + 1) = n + 1 + j from by omega] at h) hbad'
    rw [show n + (p :: pre).length = n + 1 + pre.length from by
      simp only [List.length_cons]; omega]
    simp only [List.cons_append, readLoop, upload_csv_to_dash, hstat,
      List.append_eq]
    rw [ih']
    simp [expectedReadTrace, chunkRequest]

theorem dfLoop_fail (org key table : String) (wire : Nat → HttpResponse)
    (n : Nat) (pre : List DataFrame) (ch : DataFrame) (post : List DataFrame)
    (hok : ∀ j, j < pre.length → httpRaises (wire (n + j)) = false)
    (hbad : httpRaises (wire (n + pre.length)) = true) :
    dfLoop org key table none wire n (pre ++ ch :: post)
      = (expectedDfTrace org key table wire n pre
           ++ [Event.request (chunkRequest org key table ch)
                 (wire (n + pre.length))],
         Except.error (PyError.httpError (wire (n + pre.length)))) := by
  induction pre generalizing n with
  | nil =>
    simp only [List.length_nil, Nat.add_zero] at hbad
    have hstat := raise_for_status_of_true (wire n) hbad
    simp [dfLoop, expectedDfTrace, upload_csv_to_dash, chunkRequest, hstat]
  | cons p pre ih =>
    have h0 : httpRaises (wire n) = false := by
      have h := hok 0 (by simp)
      simpa using h
    have hstat := raise_for_status_of_false (wire n) h0
    have hbad' : httpRaises (wire (n + 1 + pre.length)) = true := by
      rw [show n + 1 + pre.length = n + (p :: pre).length from by
        simp only [List.length_cons]; omega]
      exact hbad
    have ih' := ih (n + 1) (fun j hj => by
      have h := hok (j + 1) (by simp only [List.length_cons]; omega)
      rwa [show n + (j + 1) = n + 1 + j from by omega] at h) hbad'
    rw [show n + (p :: pre).length = n + 1 + pre.length from by
      simp only [List.length_cons]; omega]
    simp only [List.cons_append, dfLoop, upload_csv_to_dash, hstat,
      List.append_eq]
    rw [ih']
    simp [expectedDfTrace, chunkRequest]

theorem readLoop_none_no_fileWrite (org key table : String)
    (m : Option (DataFrame → DataFrame)) (wire : Nat → HttpResponse)
    (n : Nat) (cs : List DataFrame) :
    ∀ e ∈ (readLoop org key table m none wire n cs).1,
      e.isFileWrite = false := by
  induction cs generalizing n with
  | nil => simp [readLoop]
  | cons ch rest ih =>
    intro e he
    rw [readLoop] at he
    rcases hstat : raise_for_status (wire n) with r | r
    · simp only [upload_csv_to_dash, hstat] at he
      simp only [List.mem_singleton] at he
      subst he
      rfl
    · simp only [upload_csv_to_dash, hstat] at he
      rcases hrec : readLoop org key table m none wire (n + 1) rest with ⟨evs2, res2⟩
      rcases res2 with e2 | texts <;>
        · rw [hrec] at he
          simp only [List.mem_append, List.mem_singleton] at he
          rcases he with he | he
          · subst he; rfl
          · exact ih (n + 1) e (by rw [hrec]; exact he)

theorem dfLoop_none_no_fileWrite (org key table : String)
    (wire : Nat → HttpResponse) (n : Nat) (cs : List DataFrame) :
    ∀ e ∈ (dfLoop org key table none wire n cs).1, e.isFileWrite = false := by
  induction cs generalizing n with
  | nil => simp [dfLoop]
  | cons ch rest ih =>
    intro e he
    rw [dfLoop] at he
    rcases hstat : raise_for_status (wire n) with r | r
    · simp only [upload_csv_to_dash, hstat] at he
      simp only [List.mem_singleton] at he
      subst he
      rfl
    · simp only [upload_csv_to_dash, hstat] at he
      simp only [List.mem_append, List.mem_cons, List.not_mem_nil,
        or_false] at he
      rcases he with he | he | he
      · subst he; rfl
      · subst he; rfl
      · exact ih (n + 1) e he

theorem expectedReadFiles_no_request (dir table : String)
    (m : Option (DataFrame → DataFrame)) (n : Nat) (cs : List DataFrame) :
    ∀ e ∈ expectedReadFiles dir table m n cs, e.isRequest = false := by
  induction cs generalizing n with
  | nil => simp [expectedReadFiles]
  | cons ch rest ih =>
    intro e he
    rw [expectedReadFiles] at he
    simp only [List.mem_cons] at he
    rcases he with he | he
    · subst he; rfl
    · exact ih (n + 1) e he

theorem expectedDfFiles_no_request (dir table : String) (n : Nat)
    (cs : List DataFrame) :
    ∀ e ∈ expectedDfFiles dir table n cs, e.isRequest = false := by
  induction cs generalizing n with
  | nil => simp [expectedDfFiles]
  | cons ch rest ih =>
    intro e he
    rw [expectedDfFiles] at he
    simp only [List.mem_cons] at he
    rcases he with he | he
    · subst he; rfl
    · exact ih (n + 1) e he

-- ### astype / setColumn / prepared-frame lemmas

theorem astype_cols (df : DataFrame) (d : List (String × DType))
    (d' : DataFrame) (h : astype df d = Except.ok d') : d'.cols = df.cols := by
  rw [astype] at h
  split at h
  · rcases hm : df.rows.mapM (castRow df.cols d) with e | rs <;>
      rw [hm] at h
    · exact absurd h (by simp [Except.map])
    · simp only [Except.map] at h
      cases h
      rfl
  · exact absurd h (by simp)

theorem applyDtypes_cols (df : DataFrame)
    (dtypes : Option (List (String × DType))) (d' : DataFrame)
    (h : applyDtypes df dtypes = Except.ok d') : d'.cols = df.cols := by
  cases dtypes with
  | none =>
    rw [applyDtypes] at h
    cases h
    rfl
  | some l =>
    cases l with
    | nil =>
      rw [applyDtypes] at h
      cases h
      rfl
    | cons p ps => exact astype_cols df (p :: ps) d' h

theorem setColumn_cols_new (df : DataFrame) (name : String) (v : Value)
    (h : name ∉ df.cols) : (setColumn df name v).cols = df.cols ++ [name] := by
  rw [setColumn, if_neg h]

theorem setColumn_rows_new (df : DataFrame) (name : String) (v : Value)
    (h : name ∉ df.cols) :
    (setColumn df name v).rows = df.rows.map (fun row => row ++ [v]) := by
  rw [setColumn, if_neg h]

theorem setColumn_ne (df : DataFrame) (name : String) (v : Value)
    (h : name ∉ df.cols) : setColumn df name v ≠ df := by
  intro heq
  have hc : (setColumn df name v).cols = df.cols := by rw [heq]
  rw [setColumn_cols_new df name v h] at hc
  have := congrArg List.length hc
  simp at this

-- ### upload_dataframe decomposition lemmas

theorem upload_dataframe_run (h : Heap) (r : Nat) (hr : r < h.objs.length)
    (table org key : String) (dtypes : Option (List (String × DType)))
    (c : Nat) (dry : Option String) (inc : Bool) (ts : String)
    (wire : Nat → HttpResponse) (df' : DataFrame)
    (hprep : preparedDf (h.get r) dtypes inc ts = Except.ok df') :
    (upload_dataframe h r table org key dtypes c dry inc ts wire).2
      = dfLoop org key table dry wire 0 (dfSlices df' c) := by
  cases dtypes with
  | none =>
    rw [preparedDf, applyDtypes] at hprep
    simp only [Except.map] at hprep
    cases hprep
    rw [upload_dataframe, dfRun]
    cases inc with
    | false => simp [addSnapshot]
    | true =>
      simp only [if_true]
      rw [Heap.get_set_self h r _ hr]
      simp [addSnapshot]
  | some l =>
    cases l with
    | nil =>
      rw [preparedDf, applyDtypes] at hprep
      simp only [Except.map] at hprep
      cases hprep
      rw [upload_dataframe, dfRun]
      cases inc with
      | false => simp [addSnapshot]
      | true =>
        simp only [if_true]
        rw [Heap.get_set_self h r _ hr]
        simp [addSnapshot]
    | cons p ps =>
      rw [preparedDf, applyDtypes] at hprep
      rcases hcast : astype (h.get r) (p :: ps) with e | dh <;> rw [hcast] at hprep
      · exact absurd hprep (by simp [Except.map])
      · simp only [Except.map] at hprep
        cases hprep
        rw [upload_dataframe]
        simp only [hcast]
        rw [dfRun]
        have hnew : (h.alloc dh).1.get (h.alloc dh).2 = dh := Heap.get_alloc_new h dh
        cases inc with
        | false =>
          simp only [if_false, Bool.false_eq_true]
          rw [hnew]
          simp [addSnapshot]
        | true =>
          simp only [if_true]
          have hlen : (h.alloc dh).2 < (h.alloc dh).1.objs.length := by
            rw [Heap.alloc_length]
            exact Nat.lt_succ_self _
          rw [Heap.get_set_self _ _ _ hlen, hnew]
          simp [addSnapshot]

theorem upload_dataframe_heap_falsy (h : Heap) (r : Nat)
    (table org key : String) (dtypes : Option (List (String × DType)))
    (c : Nat) (dry : Option String) (inc : Bool) (ts : String)
    (wire : Nat → HttpResponse) (hf : dtypesTruthy dtypes = false) :
    (upload_dataframe h r table org key dtypes c dry inc ts wire).1
      = if inc then
          h.set r (setColumn (h.get r) "snapshot_timestamp" (Value.str ts))
        else h := by
  cases dtypes with
  | none => rw [upload_dataframe, dfRun]
  | some l =>
    cases l with
    | nil => rw [upload_dataframe, dfRun]
    | cons p ps => exact absurd hf (by simp [dtypesTruthy])

theorem upload_dataframe_heap_truthy (h : Heap) (r : Nat)
    (hr : r < h.objs.length) (table org key : String)
    (p : String × DType) (ps : List (String × DType)) (c : Nat)
    (dry : Option String) (inc : Bool) (ts : String)
    (wire : Nat → HttpResponse) :
    (upload_dataframe h r table org key (some (p :: ps)) c dry inc ts
        wire).1.get r = h.get r := by
  rw [upload_dataframe]
  rcases hcast : astype (h.get r) (p :: ps) with e | dh
  · simp only [hcast]
  · simp only [hcast]
    rw [dfRun]
    have hne : r ≠ (h.alloc dh).2 := by
      rw [show (h.alloc dh).2 = h.objs.length from rfl]
      omega
    cases inc with
    | false =>
      simp only [if_false, Bool.false_eq_true]
      exact Heap.get_alloc_old h dh r hr
    | true =>
      simp only [if_true]
      rw [Heap.get_set_other _ _ _ _ hne]
      exact Heap.get_alloc_old h dh r hr

theorem upload_dataframe_cast_error (h : Heap) (r : Nat)
    (table org key : String) (p : String × DType)
    (ps : List (String × DType)) (c : Nat) (dry : Option String) (inc : Bool)
    (ts : String) (wire : Nat → HttpResponse) (e : String)
    (hcast : astype (h.get r) (p :: ps) = Except.error e) :
    upload_dataframe h r table org key (some (p :: ps)) c dry inc ts wire
      = (h, [], Except.error (PyError.valueError e)) := by
  rw [upload_dataframe, hcast]

-- ### preparedDf helpers

theorem preparedDf_ok_elim (df : DataFrame)
    (dtypes : Option (List (String × DType))) (inc : Bool) (ts : String)
    (df' : DataFrame) (h : preparedDf df dtypes inc ts = Except.ok df') :
    ∃ dh, applyDtypes df dtypes = Except.ok dh ∧ df' = addSnapshot dh inc ts := by
  rw [preparedDf] at h
  rcases ha : applyDtypes df dtypes with e | dh <;> rw [ha] at h
  · exact absurd h (by simp [Except.map])
  · simp only [Except.map] at h
    cases h
    exact ⟨dh, rfl, rfl⟩

theorem preparedDf_trivial (df : DataFrame) (ts : String) :
    preparedDf df none false ts = Except.ok df := by
  simp [preparedDf, applyDtypes, addSnapshot, Except.map]

theorem upload_dataframe_trace_shape (h : Heap) (r : Nat)
    (table org key : String) (dtypes : Option (List (String × DType)))
    (c : Nat) (dry : Option String) (inc : Bool) (ts : String)
    (wire : Nat → HttpResponse) :
    (upload_dataframe h r table org key dtypes c dry inc ts wire).2.1 = [] ∨
    ∃ df', (upload_dataframe h r table org key dtypes c dry inc ts wire).2.1
      = (dfLoop org key table dry wire 0 (dfSlices df' c)).1 := by
  cases dtypes with
  | none =>
    rw [upload_dataframe, dfRun]
    exact Or.inr ⟨_, rfl⟩
  | some l =>
    cases l with
    | nil =>
      rw [upload_dataframe, dfRun]
      exact Or.inr ⟨_, rfl⟩
    | cons p ps =>
      rw [upload_dataframe]
      rcases hcast : astype (h.get r) (p :: ps) with e | dh
      · simp [hcast]
      · simp only [hcast]
        rw [dfRun]
        exact Or.inr ⟨_, rfl⟩

-- ### Claim theorems

/-- C1: for every dataset and positive chunk size, both chunked-upload entry
points split the dataset into exactly ceil(N/C) contiguous chunks (here
`(N + C - 1) / C` in natural division), each with at most C rows, whose
concatenation in processing order is exactly the original row list; both
entry points process exactly one chunk per dry-run file, so their dry-run
traces also have ceil(N/C) entries. -/
theorem C1_chunking (file : DataFrame) (h : Heap) (r : Nat)
    (table org key dir : String) (m : Option (DataFrame → DataFrame))
    (c : Nat) (hc : 0 < c) (ts : String) (wire : Nat → HttpResponse) :
    (dfSlices file c).length = (file.rows.length + c - 1) / c ∧
    (∀ s ∈ dfSlices file c, s.rows.length ≤ c) ∧
    ((dfSlices file c).map DataFrame.rows).flatten = file.rows ∧
    (read_and_upload_file_to_dash file table org key c m (some dir) wire).1.length
      = (file.rows.length + c - 1) / c ∧
    (upload_dataframe h r table org key none c (some dir) false ts wire).2.1.length
      = ((h.get r).rows.length + c - 1) / c := by
  refine ⟨dfSlices_length file c hc, dfSlices_rows_le file c,
    dfSlices_flatten file c hc, ?_, ?_⟩
  · rw [read_and_upload_file_to_dash, readLoop_dry,
      expectedReadFiles_length, dfSlices_length file c hc]
  · rw [upload_dataframe, dfRun]
    simp only [if_false, Bool.false_eq_true]
    rw [dfLoop_dry, expectedDfFiles_length, dfSlices_length _ c hc]

/-- C1 witness: a three-row dataset with chunk size two gives two chunks in
both entry points. -/
theorem C1_chunking_witness :
    (dfSlices (DataFrame.mk ["a"] [[Value.int 1], [Value.int 2], [Value.int 3]]) 2).length = 2 := by
  have hC := C1_chunking
    (DataFrame.mk ["a"] [[Value.int 1], [Value.int 2], [Value.int 3]])
    (Heap.mk []) 0 "t" "o" "k" "d" none 2 (by decide) "ts"
    (fun _ => HttpResponse.mk 200 "ok")
  rw [hC.1]
  decide

/-- C2 counterexample: a 304 Not Modified response is not 2xx, yet
`upload_csv_to_dash` returns it instead of raising, because
`raise_for_status` only raises for statuses in `[400, 600)`. -/
theorem C2_counterexample :
    is2xx (HttpResponse.mk 304 "nm") = false ∧
    (upload_csv_to_dash "o" "k" "t" (GzBytes.mk "x")
        (HttpResponse.mk 304 "nm")).2
      = Except.ok (HttpResponse.mk 304 "nm") := by
  constructor
  · decide
  · decide

/-- C2 (amended): every call to `upload_csv_to_dash` issues exactly one POST
to the fixed URL with headers Content-Type, service_client_id, x-api-key,
org-name and table-name, with no retry; it returns the raw response on any
2xx status, raises an HTTP error exactly when the status is in `[400, 600)`,
and returns the response for every other status as well. -/
theorem C2_single_post (org key table : String) (g : GzBytes)
    (resp : HttpResponse) :
    (upload_csv_to_dash org key table g resp).1
      = [Event.request
          (HttpRequest.mk "POST" dashUrl (dashHeaders key org table) g) resp] ∧
    (is2xx resp = true →
      (upload_csv_to_dash org key table g resp).2 = Except.ok resp) ∧
    (httpRaises resp = true →
      (upload_csv_to_dash org key table g resp).2
        = Except.error (PyError.httpError resp)) ∧
    (httpRaises resp = false →
      (upload_csv_to_dash org key table g resp).2 = Except.ok resp) := by
  refine ⟨rfl, ?_, ?_, ?_⟩
  · intro h2
    exact raise_for_status_of_false resp (is2xx_not_raises resp h2)
  · intro hra
    exact raise_for_status_of_true resp hra
  · intro hra
    exact raise_for_status_of_false resp hra

/-- C2 witness: a 200 response is returned as-is after exactly one POST. -/
theorem C2_single_post_witness :
    (upload_csv_to_dash "org" "key" "tbl" (GzBytes.mk "payload")
        (HttpResponse.mk 200 "ok")).2
      = Except.ok (HttpResponse.mk 200 "ok") :=
  (C2_single_post "org" "key" "tbl" (GzBytes.mk "payload")
    (HttpResponse.mk 200 "ok")).2.1 (by decide)

/-- C4: if a dry-run directory is supplied, neither entry point ever issues a
network call; if none is supplied, neither entry point ever writes a chunk
file. -/
theorem C4_dry_run_separation (file : DataFrame) (h : Heap) (r : Nat)
    (table org key : String) (m : Option (DataFrame → DataFrame)) (c : Nat)
    (dtypes : Option (List (String × DType))) (inc : Bool) (ts : String)
    (wire : Nat → HttpResponse) :
    (∀ dir : String,
      ∀ e ∈ (read_and_upload_file_to_dash file table org key c m (some dir)
        wire).1, e.isRequest = false) ∧
    (∀ e ∈ (read_and_upload_file_to_dash file table org key c m none wire).1,
      e.isFileWrite = false) ∧
    (∀ dir : String,
      ∀ e ∈ (upload_dataframe h r table org key dtypes c (some dir) inc ts
        wire).2.1, e.isRequest = false) ∧
    (∀ e ∈ (upload_dataframe h r table org key dtypes c none inc ts wire).2.1,
      e.isFileWrite = false) := by
  refine ⟨?_, ?_, ?_, ?_⟩
  · intro dir e he
    rw [read_and_upload_file_to_dash, readLoop_dry] at he
    exact expectedReadFiles_no_request dir table m 0 (dfSlices file c) e he
  · intro e he
    rw [read_and_upload_file_to_dash] at he
    exact readLoop_none_no_fileWrite org key table m wire 0 (dfSlices file c) e he
  · intro dir e he
    rcases upload_dataframe_trace_shape h r table org key dtypes c (some dir)
        inc ts wire with hsh | ⟨df', hsh⟩
    · rw [hsh] at he
      exact absurd he (List.not_mem_nil e)
    · rw [hsh, dfLoop_dry] at he
      exact expectedDfFiles_no_request dir table 0 (dfSlices df' c) e he
  · intro e he
    rcases upload_dataframe_trace_shape h r table org key dtypes c none
        inc ts wire with hsh | ⟨df', hsh⟩
    · rw [hsh] at he
      exact absurd he (List.not_mem_nil e)
    · rw [hsh] at he
      exact dfLoop_none_no_fileWrite org key table wire 0 (dfSlices df' c) e he

/-- C4 witness: in a dry run of a one-row file, the single produced event is
the chunk-file write, which is not a network request. -/
theorem C4_dry_run_separation_witness :
    Event.isRequest
      (Event.fileWrite (pathJoin "d" "t.1.csv.gz")
        (create_gzipped_csv_stream_from_df
          (DataFrame.mk ["a"] [[Value.int 7]]))) = false :=
  (C4_dry_run_separation (DataFrame.mk ["a"] [[Value.int 7]]) (Heap.mk []) 0
      "t" "o" "k" none 1 none false "ts"
      (fun _ => HttpResponse.mk 200 "ok")).1 "d" _ (by decide)

/-- C9: a fully successful non-dry-run call of `read_and_upload_file_to_dash`
returns the list of response body texts, one per chunk, ordered by chunk
position; a dry-run call returns the empty list. -/
theorem C9_return_values (file : DataFrame) (table org key dir : String)
    (m : Option (DataFrame → DataFrame)) (c : Nat)
    (wire : Nat → HttpResponse)
    (hok : ∀ j, j < (dfSlices file c).length → httpRaises (wire j) = false) :
    (read_and_upload_file_to_dash file table org key c m none wire).2
      = Except.ok (expectedTexts wire 0 (dfSlices file c)) ∧
    (expectedTexts wire 0 (dfSlices file c)).length
      = (dfSlices file c).length ∧
    (∀ k, k < (dfSlices file c).length →
      (expectedTexts wire 0 (dfSlices file c)).getD k "" = (wire k).text) ∧
    (read_and_upload_file_to_dash file table org key c m (some dir) wire).2
      = Except.ok [] := by
  refine ⟨?_, expectedTexts_length wire 0 (dfSlices file c), ?_, ?_⟩
  · rw [read_and_upload_file_to_dash,
      readLoop_ok org key table m wire 0 (dfSlices file c)
        (fun j hj => by simpa using hok j hj)]
  · intro k hk
    rw [expectedTexts_getD wire 0 k (dfSlices file c) hk, Nat.zero_add]
  · rw [read_and_upload_file_to_dash, readLoop_dry]

/-- C9 witness: two chunks with responses "r0" and "r1" come back in order. -/
theorem C9_return_values_witness :
    (read_and_upload_file_to_dash
        (DataFrame.mk ["a"] [[Value.int 1], [Value.int 2]]) "t" "o" "k" 1 none
        none
        (fun n => if n = 0 then HttpResponse.mk 200 "r0"
                  else HttpResponse.mk 201 "r1")).2
      = Except.ok ["r0", "r1"] := by
  have hC := C9_return_values
    (DataFrame.mk ["a"] [[Value.int 1], [Value.int 2]]) "t" "o" "k" "d" none 1
    (fun n => if n = 0 then HttpResponse.mk 200 "r0"
              else HttpResponse.mk 201 "r1")
    (by decide)
  rw [hC.1]
  decide

/-- C3: in non-dry-run mode, if the upload of the chunk after `pre` raises
(the response status is an HTTP-error status, see `raise_for_status`), then
in both entry points the error propagates immediately: the event trace is
exactly the uploads of the earlier chunks followed by the failing POST, no
later chunk is serialized or uploaded, and the previously recorded effects
remain in the trace unchanged. -/
theorem C3_error_propagation (file : DataFrame) (h : Heap) (r : Nat)
    (hr : r < h.objs.length) (table org key : String)
    (m : Option (DataFrame → DataFrame)) (c : Nat)
    (dtypes : Option (List (String × DType))) (inc : Bool) (ts : String)
    (wire : Nat → HttpResponse)
    (pre : List DataFrame) (ch : DataFrame) (post : List DataFrame)
    (hsplit : dfSlices file c = pre ++ ch :: post)
    (hok : ∀ j, j < pre.length → httpRaises (wire j) = false)
    (hbad : httpRaises (wire pre.length) = true)
    (df' : DataFrame)
    (hprep : preparedDf (h.get r) dtypes inc ts = Except.ok df')
    (pre2 : List DataFrame) (ch2 : DataFrame) (post2 : List DataFrame)
    (hsplit2 : dfSlices df' c = pre2 ++ ch2 :: post2)
    (hok2 : ∀ j, j < pre2.length → httpRaises (wire j) = false)
    (hbad2 : httpRaises (wire pre2.length) = true) :
    read_and_upload_file_to_dash file table org key c m none wire
      = (expectedReadTrace org key table m wire 0 pre
           ++ [Event.request (chunkRequest org key table (applyModify m ch))
                 (wire pre.length)],
         Except.error (PyError.httpError (wire pre.length))) ∧
    (upload_dataframe h r table org key dtypes c none inc ts wire).2
      = (expectedDfTrace org key table wire 0 pre2
           ++ [Event.request (chunkRequest org key table ch2)
                 (wire pre2.length)],
         Except.error (PyError.httpError (wire pre2.length))) := by
  constructor
  · rw [read_and_upload_file_to_dash, hsplit,
      readLoop_fail org key table m wire 0 pre ch post
        (fun j hj => by simpa using hok j hj) (by simpa using hbad)]
    rw [Nat.zero_add]
  · rw [upload_dataframe_run h r hr table org key dtypes c none inc ts wire
      df' hprep, hsplit2,
      dfLoop_fail org key table wire 0 pre2 ch2 post2
        (fun j hj => by simpa using hok2 j hj) (by simpa using hbad2)]
    rw [Nat.zero_add]

/-- C3 witness: with two one-row chunks, a 500 on the second chunk makes the
file-based call raise after exactly the two recorded POSTs. -/
theorem C3_error_propagation_witness :
    (read_and_upload_file_to_dash
        (DataFrame.mk ["a"] [[Value.int 1], [Value.int 2]]) "t" "o" "k" 1 none
        none
        (fun n => if n = 0 then HttpResponse.mk 200 "r0"
                  else HttpResponse.mk 500 "err")).2
      = Except.error (PyError.httpError (HttpResponse.mk 500 "err")) := by
  have hC := C3_error_propagation
    (DataFrame.mk ["a"] [[Value.int 1], [Value.int 2]])
    (Heap.mk [DataFrame.mk ["a"] [[Value.int 1], [Value.int 2]]]) 0
    (by decide) "t" "o" "k" none 1 none false "ts"
    (fun n => if n = 0 then HttpResponse.mk 200 "r0"
              else HttpResponse.mk 500 "err")
    [DataFrame.mk ["a"] [[Value.int 1]]] (DataFrame.mk ["a"] [[Value.int 2]])
    [] (by decide) (by decide) (by decide)
    (DataFrame.mk ["a"] [[Value.int 1], [Value.int 2]]) (by decide)
    [DataFrame.mk ["a"] [[Value.int 1]]] (DataFrame.mk ["a"] [[Value.int 2]])
    [] (by decide) (by decide) (by decide)
  have h2 := congrArg Prod.snd hC.1
  simp only at h2
  rw [h2]
  decide

/-- C7: in dry-run mode the chunk at 0-based position `k` is written to
`<dir>/<table>.<k+1>.csv.gz` by the file-based entry point and to
`<dir>/<table>.<k>.csv.gz` by the dataframe-based entry point, sequentially
in chunk order. -/
theorem C7_dry_run_paths (file : DataFrame) (h : Heap) (r : Nat)
    (hr : r < h.objs.length) (table org key dir : String)
    (m : Option (DataFrame → DataFrame)) (c : Nat)
    (dtypes : Option (List (String × DType))) (inc : Bool) (ts : String)
    (wire : Nat → HttpResponse) (df' : DataFrame)
    (hprep : preparedDf (h.get r) dtypes inc ts = Except.ok df') :
    (read_and_upload_file_to_dash file table org key c m (some dir) wire).1
      = expectedReadFiles dir table m 0 (dfSlices file c) ∧
    (∀ k, k < (dfSlices file c).length →
      (read_and_upload_file_to_dash file table org key c m (some dir)
          wire).1.getD k (Event.logInfo "")
        = Event.fileWrite
            (pathJoin dir (table ++ "." ++ toString (k + 1) ++ ".csv.gz"))
            (create_gzipped_csv_stream_from_df
              (applyModify m ((dfSlices file c).getD k (DataFrame.mk [] []))))) ∧
    (upload_dataframe h r table org key dtypes c (some dir) inc ts wire).2.1
      = expectedDfFiles dir table 0 (dfSlices df' c) ∧
    (∀ k, k < (dfSlices df' c).length →
      (upload_dataframe h r table org key dtypes c (some dir) inc ts
          wire).2.1.getD k (Event.logInfo "")
        = Event.fileWrite
            (pathJoin dir (table ++ "." ++ toString k ++ ".csv.gz"))
            (create_gzipped_csv_stream_from_df
              ((dfSlices df' c).getD k (DataFrame.mk [] [])))) := by
  have hread : (read_and_upload_file_to_dash file table org key c m (some dir)
      wire).1 = expectedReadFiles dir table m 0 (dfSlices file c) := by
    rw [read_and_upload_file_to_dash, readLoop_dry]
  have hdf : (upload_dataframe h r table org key dtypes c (some dir) inc ts
      wire).2.1 = expectedDfFiles dir table 0 (dfSlices df' c) := by
    have hrun := upload_dataframe_run h r hr table org key dtypes c (some dir)
      inc ts wire df' hprep
    rw [show (upload_dataframe h r table org key dtypes c (some dir) inc ts
        wire).2.1
      = (dfLoop org key table (some dir) wire 0 (dfSlices df' c)).1 from
        congrArg Prod.fst hrun, dfLoop_dry]
  refine ⟨hread, ?_, hdf, ?_⟩
  · intro k hk
    rw [hread, expectedReadFiles_getD dir table m 0 k (dfSlices file c) hk,
      Nat.zero_add]
  · intro k hk
    rw [hdf, expectedDfFiles_getD dir table 0 k (dfSlices df' c) hk,
      Nat.zero_add]

/-- C7 witness: with two one-row chunks, the file-based dry run writes file
index 1 at position 0 while the dataframe-based dry run writes file index 0
at position 0. -/
theorem C7_dry_run_paths_witness :
    (read_and_upload_file_to_dash
        (DataFrame.mk ["a"] [[Value.int 1], [Value.int 2]]) "t" "o" "k" 1 none
        (some "d") (fun _ => HttpResponse.mk 200 "ok")).1.getD 0
        (Event.logInfo "")
      = Event.fileWrite (pathJoin "d" "t.1.csv.gz")
          (create_gzipped_csv_stream_from_df
            (DataFrame.mk ["a"] [[Value.int 1]])) := by
  have hC := C7_dry_run_paths
    (DataFrame.mk ["a"] [[Value.int 1], [Value.int 2]])
    (Heap.mk [DataFrame.mk ["a"] [[Value.int 1], [Value.int 2]]]) 0
    (by decide) "t" "o" "k" "d" none 1 none false "ts"
    (fun _ => HttpResponse.mk 200 "ok")
    (DataFrame.mk ["a"] [[Value.int 1], [Value.int 2]]) (by decide)
  rw [hC.2.1 0 (by decide)]
  decide

/-- C10: when `dtypes` is falsy (None or the empty dict) and
`include_snapshot` is true, `upload_dataframe` mutates the caller's
dataframe object in place by the snapshot-column assignment, so the caller's
object differs afterwards whenever the column was not already present;
when a non-empty `dtypes` map is supplied, `astype` produces a fresh object
and the caller's object is left unchanged. -/
theorem C10_caller_frame (h : Heap) (r : Nat) (hr : r < h.objs.length)
    (table org key : String) (c : Nat) (dry : Option String) (ts : String)
    (wire : Nat → HttpResponse) :
    (∀ dtypes, dtypesTruthy dtypes = false →
      (upload_dataframe h r table org key dtypes c dry true ts wire).1.get r
        = setColumn (h.get r) "snapshot_timestamp" (Value.str ts) ∧
      ("snapshot_timestamp" ∉ (h.get r).cols →
        (upload_dataframe h r table org key dtypes c dry true ts
            wire).1.get r ≠ h.get r)) ∧
    (∀ (p : String × DType) (ps : List (String × DType)) (inc : Bool),
      (upload_dataframe h r table org key (some (p :: ps)) c dry inc ts
          wire).1.get r = h.get r) := by
  constructor
  · intro dtypes hf
    have hheap := upload_dataframe_heap_falsy h r table org key dtypes c dry
      true ts wire hf
    rw [if_pos rfl] at hheap
    have hget : (upload_dataframe h r table org key dtypes c dry true ts
        wire).1.get r = setColumn (h.get r) "snapshot_timestamp"
        (Value.str ts) := by
      rw [hheap, Heap.get_set_self h r _ hr]
    refine ⟨hget, fun hnot => ?_⟩
    rw [hget]
    exact setColumn_ne (h.get r) "snapshot_timestamp" (Value.str ts) hnot
  · intro p ps inc
    exact upload_dataframe_heap_truthy h r hr table org key p ps c dry inc ts
      wire

/-- C10 witness: on a falsy dtypes call the caller's one-column frame gains
the snapshot column in place; on a truthy dtypes call it is untouched. -/
theorem C10_caller_frame_witness :
    (upload_dataframe (Heap.mk [DataFrame.mk ["a"] [[Value.int 1]]]) 0 "t"
        "o" "k" none 1 (some "d") true "TS"
        (fun _ => HttpResponse.mk 200 "ok")).1.get 0
      = DataFrame.mk ["a", "snapshot_timestamp"]
          [[Value.int 1, Value.str "TS"]] := by
  have hC := C10_caller_frame (Heap.mk [DataFrame.mk ["a"] [[Value.int 1]]])
    0 (by decide) "t" "o" "k" 1 (some "d") "TS"
    (fun _ => HttpResponse.mk 200 "ok")
  rw [(hC.1 none (by decide)).1]
  decide

/-- C5 counterexample: on a dataframe that already has a
`snapshot_timestamp` column, the assignment overwrites the existing column
in place, so no column is added at all — refuting "exactly one column is
added" for that call. -/
theorem C5_counterexample :
    preparedDf (DataFrame.mk ["snapshot_timestamp"] [[Value.str "old"]]) none
        true "T"
      = Except.ok (DataFrame.mk ["snapshot_timestamp"] [[Value.str "T"]]) ∧
    (DataFrame.mk ["snapshot_timestamp"] [[Value.str "T"]]).cols.length
      ≠ (DataFrame.mk ["snapshot_timestamp"]
          [[Value.str "old"]]).cols.length + 1 := by
  constructor
  · decide
  · decide

/-- C5 (amended): for every `upload_dataframe` call with
`include_snapshot = true` whose input frame does not already have a
`snapshot_timestamp` column, exactly one column named `snapshot_timestamp`
is appended (after the optional dtype cast), every row of every chunk
produced by the call carries the identical call-start timestamp string `ts`
in that last column, and the call processes exactly the chunks of that
augmented frame.  (If the column already exists it is overwritten in place
with the same constant value instead of being added, see
`C5_counterexample`.) -/
theorem C5_snapshot_column (h : Heap) (r : Nat) (hr : r < h.objs.length)
    (table org key : String) (dtypes : Option (List (String × DType)))
    (c : Nat) (hc : 0 < c) (dry : Option String) (ts : String)
    (wire : Nat → HttpResponse) (df' : DataFrame)
    (hprep : preparedDf (h.get r) dtypes true ts = Except.ok df')
    (hnot : "snapshot_timestamp" ∉ (h.get r).cols) :
    df'.cols = (h.get r).cols ++ ["snapshot_timestamp"] ∧
    (∀ s ∈ dfSlices df' c, ∀ row ∈ s.rows,
      row.getLast? = some (Value.str ts)) ∧
    (upload_dataframe h r table org key dtypes c dry true ts wire).2
      = dfLoop org key table dry wire 0 (dfSlices df' c) := by
  obtain ⟨dh, hdt, hdf⟩ :=
    preparedDf_ok_elim (h.get r) dtypes true ts df' hprep
  have hcols : dh.cols = (h.get r).cols := applyDtypes_cols (h.get r) dtypes dh hdt
  have hnot' : "snapshot_timestamp" ∉ dh.cols := by rw [hcols]; exact hnot
  have hdf' : df' = setColumn dh "snapshot_timestamp" (Value.str ts) := by
    rw [hdf, addSnapshot, if_pos rfl]
  refine ⟨?_, ?_, upload_dataframe_run h r hr table org key dtypes c dry true
    ts wire df' hprep⟩
  · rw [hdf', setColumn_cols_new dh "snapshot_timestamp" (Value.str ts) hnot',
      hcols]
  · intro s hs row hrow
    have hmem : row ∈ df'.rows := dfSlices_mem_rows df' c hc s hs row hrow
    rw [hdf', setColumn_rows_new dh "snapshot_timestamp" (Value.str ts) hnot']
      at hmem
    rw [List.mem_map] at hmem
    obtain ⟨orig, horig, rfl⟩ := hmem
    exact List.getLast?_concat orig

/-- C5 witness: a two-row, one-column frame gains exactly the snapshot
column. -/
theorem C5_snapshot_column_witness :
    (DataFrame.mk ["a", "snapshot_timestamp"]
        [[Value.int 1, Value.str "TS"], [Value.int 2, Value.str "TS"]]).cols
      = ["a", "snapshot_timestamp"] := by
  have hC := C5_snapshot_column
    (Heap.mk [DataFrame.mk ["a"] [[Value.int 1], [Value.int 2]]]) 0
    (by decide) "t" "o" "k" none 1 (by decide) (some "d") "TS"
    (fun _ => HttpResponse.mk 200 "ok")
    (DataFrame.mk ["a", "snapshot_timestamp"]
      [[Value.int 1, Value.str "TS"], [Value.int 2, Value.str "TS"]])
    (by decide) (by decide)
  rw [hC.1]
  decide

/-- C8: with a non-empty dtypes map the named columns are cast before
chunking and before the snapshot column is added (the processed chunks are
exactly the slices of the cast-then-augmented frame); a failing cast
escapes immediately — no chunk is processed, no event is emitted, the heap
is untouched; and on the concrete example `{"a": "int"}` over string values
"1","2", the serialized output carries `1` and `2` unquoted while the other
string column stays quoted. -/
theorem C8_dtype_coercion (h : Heap) (r : Nat) (hr : r < h.objs.length)
    (table org key : String) (p : String × DType)
    (ps : List (String × DType)) (c : Nat) (dry : Option String) (inc : Bool)
    (ts : String) (wire : Nat → HttpResponse) :
    (∀ dh, astype (h.get r) (p :: ps) = Except.ok dh →
      (upload_dataframe h r table org key (some (p :: ps)) c dry inc ts
          wire).2
        = dfLoop org key table dry wire 0
            (dfSlices (addSnapshot dh inc ts) c)) ∧
    (∀ e, astype (h.get r) (p :: ps) = Except.error e →
      upload_dataframe h r table org key (some (p :: ps)) c dry inc ts wire
        = (h, [], Except.error (PyError.valueError e))) ∧
    astype (DataFrame.mk ["a", "b"]
        [[Value.str "1", Value.str "x"], [Value.str "2", Value.str "y"]])
        [("a", DType.int)]
      = Except.ok (DataFrame.mk ["a", "b"]
          [[Value.int 1, Value.str "x"], [Value.int 2, Value.str "y"]]) ∧
    toCsv (DataFrame.mk ["a", "b"]
        [[Value.int 1, Value.str "x"], [Value.int 2, Value.str "y"]])
      = "\"a\",\"b\"\n1,\"x\"\n2,\"y\"\n" := by
  refine ⟨?_, ?_, by decide, by decide⟩
  · intro dh hcast
    apply upload_dataframe_run h r hr table org key (some (p :: ps)) c dry
      inc ts wire
    rw [preparedDf, applyDtypes, hcast]
    rfl
  · intro e hcast
    exact upload_dataframe_cast_error h r table org key p ps c dry inc ts
      wire e hcast

/-- C8 witness: casting the single string column "1" to int succeeds and the
dry-run call completes. -/
theorem C8_dtype_coercion_witness :
    (upload_dataframe (Heap.mk [DataFrame.mk ["a"] [[Value.str "1"]]]) 0 "t"
        "o" "k" (some [("a", DType.int)]) 1 (some "d") false "TS"
        (fun _ => HttpResponse.mk 200 "ok")).2.2 = Except.ok () := by
  have hC := C8_dtype_coercion
    (Heap.mk [DataFrame.mk ["a"] [[Value.str "1"]]]) 0 (by decide) "t" "o"
    "k" ("a", DType.int) [] 1 (some "d") false "TS"
    (fun _ => HttpResponse.mk 200 "ok")
  have h1 := hC.1 (DataFrame.mk ["a"] [[Value.int 1]]) (by decide)
  have h2 := congrArg Prod.snd h1
  simp only at h2
  rw [h2]
  decide

-- ### Integer rendering facts

theorem plainChar_digitChar (m : Nat) : plainChar (Nat.digitChar m) = true := by
  match m with
  | 0 | 1 | 2 | 3 | 4 | 5 | 6 | 7 | 8 | 9 | 10 | 11 | 12 | 13 | 14 | 15 =>
    decide
  | m + 16 =>
    have h : Nat.digitChar (m + 16) = '*' := by
      rw [Nat.digitChar]
      repeat rw [if_neg (by omega)]
    rw [h]
    decide

theorem plainChar_spec (c : Char) (h : plainChar c = true) :
    c ≠ ',' ∧ c ≠ '\n' ∧ c ≠ '"' := by
  simp only [plainChar, Bool.not_eq_true', Bool.or_eq_false_iff,
    decide_eq_false_iff_not] at h
  exact ⟨h.1.1, h.1.2, h.2⟩

theorem toDigitsCore_plain (b : Nat) :
    ∀ (fuel n : Nat) (acc : List Char),
      (∀ c ∈ acc, plainChar c = true) →
      ∀ c ∈ Nat.toDigitsCore b fuel n acc, plainChar c = true := by
  intro fuel
  induction fuel with
  | zero =>
    intro n acc hacc c hc
    rw [Nat.toDigitsCore] at hc
    exact hacc c hc
  | succ fuel ih =>
    intro n acc hacc c hc
    rw [Nat.toDigitsCore] at hc
    have hcons : ∀ x ∈ Nat.digitChar (n % b) :: acc, plainChar x = true := by
      intro x hx
      rcases List.mem_cons.mp hx with rfl | hx
      · exact plainChar_digitChar (n % b)
      · exact hacc x hx
    split at hc
    · exact hcons c hc
    · exact ih (n / b) (Nat.digitChar (n % b) :: acc) hcons c hc

theorem natRepr_plain (n : Nat) : ∀ c ∈ (Nat.repr n).data, plainChar c = true := by
  intro c hc
  rw [Nat.repr] at hc
  have hdata : (Nat.toDigits 10 n).asString.data = Nat.toDigits 10 n := rfl
  rw [hdata, Nat.toDigits] at hc
  exact toDigitsCore_plain 10 (n + 1) n [] (by intro x hx; cases hx) c hc

theorem intToString_plain (n : Int) :
    ∀ c ∈ (toString n).data, plainChar c = true := by
  intro c hc
  have he : toString n = Int.repr n := rfl
  rw [he] at hc
  cases n with
  | ofNat m => exact natRepr_plain m c hc
  | negSucc m =>
    rw [Int.repr] at hc
    rw [String.data_append] at hc
    rcases List.mem_append.mp hc with hcm | hcm
    · have : c = '-' := by simpa using hcm
      subst this
      decide
    · exact natRepr_plain (m + 1) c hcm

-- ### Parser inversion lemmas

theorem parseQuoted_close (cs : List Char) (hhead : cs.head? ≠ some '"') :
    parseQuoted ('"' :: cs) = some ([], cs) := by
  cases cs with
  | nil => rfl
  | cons c2 r2 =>
    have hne : c2 ≠ '"' := by
      intro he
      subst he
      exact hhead rfl
    rw [parseQuoted, if_pos rfl, if_neg hne]

theorem parseQuoted_escaped (cs : List Char) :
    parseQuoted ('"' :: '"' :: cs)
      = (parseQuoted cs).map (fun p => ('"' :: p.1, p.2)) := by
  rw [parseQuoted, if_pos rfl, if_pos rfl]

theorem parseQuoted_plain (c : Char) (cs : List Char) (hc : c ≠ '"') :
    parseQuoted (c :: cs)
      = (parseQuoted cs).map (fun p => (c :: p.1, p.2)) := by
  cases cs with
  | nil => simp [parseQuoted, hc]
  | cons c2 r2 => rw [parseQuoted, if_neg hc]

theorem parseQuoted_escape (s : List Char) :
    ∀ rest : List Char, rest.head? ≠ some '"' →
      parseQuoted (escapeQuotes s ++ '"' :: rest) = some (s, rest) := by
  induction s with
  | nil =>
    intro rest hhead
    rw [escapeQuotes, List.nil_append]
    exact parseQuoted_close rest hhead
  | cons a s ih =>
    intro rest hhead
    by_cases ha : a = '"'
    · subst ha
      rw [escapeQuotes, if_pos rfl, List.cons_append, List.cons_append,
        parseQuoted_escaped, ih rest hhead]
      rfl
    · rw [escapeQuotes, if_neg ha, List.cons_append,
        parseQuoted_plain a _ ha, ih rest hhead]
      rfl

theorem takeUnquoted_token (t : List Char) (d : Char) (rest : List Char)
    (ht : ∀ c ∈ t, plainChar c = true) (hd : d = ',' ∨ d = '\n') :
    takeUnquoted (t ++ d :: rest) = (t, d :: rest) := by
  induction t with
  | nil =>
    rcases hd with rfl | rfl <;> rfl
  | cons a t ih =>
    have ha := plainChar_spec a (ht a (by simp))
    rw [List.cons_append, takeUnquoted, if_neg (by simp [ha.1, ha.2.1]),
      ih (fun c hc => ht c (by simp [hc]))]

theorem parseField_value (v : Value) (d : Char) (rest : List Char)
    (hd : d = ',' ∨ d = '\n') :
    parseField (renderValueChars v ++ d :: rest)
      = some (csvFieldOfValue v, d :: rest) := by
  cases v with
  | str s =>
    have hhead : (d :: rest).head? ≠ some '"' := by
      rcases hd with rfl | rfl <;> simp
    rw [renderValueChars, csvFieldOfValue, List.cons_append,
      List.append_assoc, List.singleton_append, parseField, if_pos rfl,
      parseQuoted_escape s.data (d :: rest) hhead]
    rfl
  | int n =>
    have hplain := intToString_plain n
    cases hts : (toString n).data with
    | nil =>
      rw [renderValueChars, csvFieldOfValue, hts, List.nil_append, parseField]
      have hne : d ≠ '"' := by rcases hd with rfl | rfl <;> decide
      rw [if_neg hne]
      rcases hd with rfl | rfl <;> rfl
    | cons a as =>
      have ha := plainChar_spec a (hplain a (by rw [hts]; simp))
      have htok : takeUnquoted ((a :: as) ++ d :: rest) = (a :: as, d :: rest) :=
        takeUnquoted_token (a :: as) d rest
          (fun c hc => hplain c (by rw [hts]; exact hc)) hd
      rw [renderValueChars, csvFieldOfValue, hts, List.cons_append, parseField,
        if_neg ha.2.2]
      simp only [← List.cons_append, htok]

theorem parseRecord_line (fs : List Value) :
    ∀ (fuel : Nat) (rest : List Char),
      fs ≠ [] → fs.length ≤ fuel →
      parseRecord fuel (renderLine fs ++ '\n' :: rest)
        = some (fs.map csvFieldOfValue, '\n' :: rest) := by
  induction fs with
  | nil =>
    intro fuel rest hne hlen
    exact absurd rfl hne
  | cons v vs ih =>
    intro fuel rest hne hlen
    cases vs with
    | nil =>
      cases fuel with
      | zero => simp at hlen
      | succ fuel =>
        rw [renderLine, parseRecord,
          parseField_value v '\n' rest (Or.inr rfl)]
        rfl
    | cons w ws =>
      cases fuel with
      | zero => simp at hlen
      | succ fuel =>
        have hih := ih fuel rest (by simp)
          (by simp only [List.length_cons] at hlen ⊢; omega)
        rw [renderLine, List.append_assoc, List.cons_append, parseRecord,
          parseField_value v ',' (renderLine (w :: ws) ++ '\n' :: rest)
            (Or.inl rfl)]
        simp [hih]

theorem renderLine_length_ge (fs : List Value) :
    fs.length ≤ (renderLine fs).length + 1 := by
  induction fs with
  | nil => simp [renderLine]
  | cons v vs ih =>
    cases vs with
    | nil => simp [renderLine]
    | cons w ws =>
      rw [renderLine]
      simp only [List.length_append, List.length_cons] at ih ⊢
      omega

theorem csvLines_length_ge (lines : List (List Value)) :
    lines.length ≤ (csvLines lines).length := by
  induction lines with
  | nil => simp [csvLines]
  | cons l ls ih =>
    rw [csvLines]
    simp only [List.length_append, List.length_cons] at ih ⊢
    omega

theorem parseRecords_csvLines (lines : List (List Value)) :
    ∀ fuel : Nat,
      (∀ l ∈ lines, l ≠ []) → lines.length < fuel →
      parseRecords fuel (csvLines lines)
        = some (lines.map (List.map csvFieldOfValue)) := by
  induction lines with
  | nil =>
    intro fuel hne hlen
    cases fuel with
    | zero => simp at hlen
    | succ fuel =>
      rw [csvLines, parseRecords, if_pos rfl]
      rfl
  | cons l ls ih =>
    intro fuel hne hlen
    cases fuel with
    | zero => simp at hlen
    | succ fuel =>
      have hnil : renderLine l ++ '\n' :: csvLines ls ≠ [] := by simp
      have hfuel2 : l.length
          ≤ (renderLine l ++ '\n' :: csvLines ls).length + 1 := by
        have h1 := renderLine_length_ge l
        simp only [List.length_append, List.length_cons]
        omega
      have hih := ih fuel (fun x hx => hne x (by simp [hx]))
        (by simp only [List.length_cons] at hlen ⊢; omega)
      rw [csvLines, parseRecords, if_neg hnil,
        parseRecord_line l _ (csvLines ls) (hne l (by simp)) hfuel2]
      simp [hih]

/-- C6: the serialized stream decompresses to exactly the CSV text of the
frame, and that text parses back (by a standard CSV reader) to the header
record of quoted column names followed by exactly one record per row in
order — header included, no index column, string cells recovered verbatim as
quoted fields (even with embedded quotes, commas or newlines) and integer
cells as unquoted numeric tokens.  The serializer is a pure function of the
frame, so determinism holds by construction.  The nonemptiness hypotheses
exclude only frames CSV cannot represent (a record with zero fields). -/
theorem C6_serialization (df : DataFrame) (hcols : df.cols ≠ [])
    (hrows : ∀ row ∈ df.rows, row ≠ []) :
    gzipDecompress (create_gzipped_csv_stream_from_df df) = toCsv df ∧
    parseCsvChars (toCsv df).data
      = some (((df.cols.map Value.str) :: df.rows).map
          (List.map csvFieldOfValue)) ∧
    ((df.cols.map Value.str) :: df.rows).map (List.map csvFieldOfValue)
      = (df.cols.map (fun name => CsvField.quoted name.data))
          :: df.rows.map (fun row => row.map csvFieldOfValue) := by
  refine ⟨rfl, ?_, ?_⟩
  · have hdata : (toCsv df).data
        = csvLines ((df.cols.map Value.str) :: df.rows) := rfl
    rw [parseCsvChars, hdata]
    apply parseRecords_csvLines
    · intro l hl
      rcases List.mem_cons.mp hl with rfl | hl
      · simpa using hcols
      · exact hrows l hl
    · have h1 := csvLines_length_ge ((df.cols.map Value.str) :: df.rows)
      omega
  · simp [List.map_map, Function.comp, csvFieldOfValue]

/-- C6 witness: a frame with an embedded quote in a string cell and a
negative integer round-trips to the expected classified fields. -/
theorem C6_serialization_witness :
    parseCsvChars
        (toCsv (DataFrame.mk ["a"]
          [[Value.str "x\"y"], [Value.int (-3)]])).data
      = some [[CsvField.quoted ['a']], [CsvField.quoted ['x', '"', 'y']],
          [CsvField.unquoted ['-', '3']]] := by
  have hC := C6_serialization
    (DataFrame.mk ["a"] [[Value.str "x\"y"], [Value.int (-3)]])
    (by decide) (by decide)
  rw [hC.2.1]
  decide
